import Mathlib

/-!
Verification development for a document-reconciliation tool consisting of four
Python scripts (fix_content_loss.py, fix_remaining_bibliography.py,
fix_keywords.py, fix_all_keywords.py).  The scripts repair a derivative XML
corpus from an XHTML source corpus using regular-expression scanning and
literal string substitution.

Shallow embedding conventions:
* Python `str` values are modelled as `List Char` (the inputs are ASCII).
* Each regular expression used by the scripts is embedded as a direct
  scanner over `List Char`.  Every pattern in the scripts has the property
  that each bounded character class excludes the character that must follow
  it (for example `[^<]*` followed by `</bibliomixed>`), so the greedy
  backtracking search of Python's `re` engine is deterministic and the
  scanners below implement it exactly: try a match at each position from the
  left, and on success continue after the match (finditer) or stop (search).
* `str.replace(old, new, 1)` is `replaceFirst`, built on `splitFirst`,
  which locates the leftmost occurrence of a literal substring.
* Python's threshold test `len(cur) < len(full) * 0.7` on string lengths is
  embedded as the exact rational comparison `10 * len cur < 7 * len full`.
  For every length below 2^49 the two tests agree: `0.7` rounds to a double
  slightly below 7/10, the product `n * 0.7` never rounds past the exact
  value `7n/10` when that value is an integer (the tie at `n = 10 * 2^k`
  rounds to even, i.e. down to the integer), and otherwise the exact value
  is at least 1/10 away from any integer while the rounding error is far
  smaller, so the integer comparison is unaffected.
* File I/O failures are modelled with `Except`: the scripts wrap reads in
  `try/except` blocks that return empty results.
-/

/-- Python whitespace class `\s` restricted to the ASCII range, which also
matches the default character set of `str.strip()`. -/
def isWsPy (c : Char) : Bool :=
  c = ' ' || c = '\t' || c = '\n' || c = '\r' || c = '\x0b' || c = '\x0c'

/-- Python `str.strip()`: remove leading and trailing whitespace. -/
def pyStrip (s : List Char) : List Char :=
  (((s.dropWhile isWsPy).reverse).dropWhile isWsPy).reverse

/-- Value of a run of decimal digits, as computed by Python `int()`. -/
def digitsToNat (ds : List Char) : Nat :=
  ds.foldl (fun a c => 10 * a + (c.toNat - 48)) 0

/-- Decimal rendering of a natural number, as Python `str(n)`. -/
def natDigits (n : Nat) : List Char :=
  Nat.toDigits 10 n

/-- Python format `f"{n:02d}"`. -/
def pad2 (n : Nat) : List Char :=
  if n < 10 then '0' :: natDigits n else natDigits n

/-- Python format `f"{n:03d}"`. -/
def pad3 (n : Nat) : List Char :=
  if n < 10 then '0' :: '0' :: natDigits n
  else if n < 100 then '0' :: natDigits n
  else natDigits n

/-- Literal-prefix test: does `p` occur at the very start of `s`. -/
def litPre : List Char → List Char → Bool
  | [], _ => true
  | _ :: _, [] => false
  | a :: as, b :: bs => if a = b then litPre as bs else false

/-- Consume the literal `p` at the start of `s`, returning the remainder. -/
def lit (p s : List Char) : Option (List Char) :=
  if litPre p s then some (s.drop p.length) else none

/-- Locate the leftmost occurrence of the literal `p` in `s`, returning the
text before and after it (the decomposition used by `str.find` and by
`str.replace(old, new, 1)`). -/
def splitFirst (p : List Char) : List Char → Option (List Char × List Char)
  | [] => if litPre p [] then some ([], []) else none
  | c :: rest =>
    if litPre p (c :: rest) then some ([], (c :: rest).drop p.length)
    else
      match splitFirst p rest with
      | some (a, b) => some (c :: a, b)
      | none => none

/-- Python `s.replace(old, new, 1)`: replace the leftmost occurrence of
`old`, or return `s` unchanged when `old` does not occur. -/
def replaceFirst (old new s : List Char) : List Char :=
  match splitFirst old s with
  | some (a, b) => a ++ new ++ b
  | none => s

/-- Python `old in s` (substring containment). -/
def containsSub (p s : List Char) : Bool :=
  (splitFirst p s).isSome

/-- Escape of one character under Python `html.escape` with the default
`quote=True`.  The library function performs sequential whole-string
replaces (`&` first, then `<`, `>`, `"`, `'`); since no replacement text
contains a character replaced by a later stage, this equals a per-character
map. -/
def escChar (c : Char) : List Char :=
  if c = '&' then "&amp;".data
  else if c = '<' then "&lt;".data
  else if c = '>' then "&gt;".data
  else if c = '"' then "&quot;".data
  else if c = '\'' then "&#x27;".data
  else [c]

/-- Python `html.escape` with the default `quote=True`. -/
def htmlEscape (s : List Char) : List Char :=
  (s.map escChar).flatten

/-- Python `html.unescape`, restricted to the named and numeric entities
that occur in this development (unrecognised ampersands pass through, as in
the library function). -/
def htmlUnescape : List Char → List Char
  | [] => []
  | '&' :: 'a' :: 'm' :: 'p' :: ';' :: rest => '&' :: htmlUnescape rest
  | '&' :: 'l' :: 't' :: ';' :: rest => '<' :: htmlUnescape rest
  | '&' :: 'g' :: 't' :: ';' :: rest => '>' :: htmlUnescape rest
  | '&' :: 'q' :: 'u' :: 'o' :: 't' :: ';' :: rest => '"' :: htmlUnescape rest
  | '&' :: '#' :: 'x' :: '2' :: '7' :: ';' :: rest => '\'' :: htmlUnescape rest
  | '&' :: '#' :: '3' :: '2' :: ';' :: rest => ' ' :: htmlUnescape rest
  | '&' :: '#' :: '3' :: '8' :: ';' :: rest => '&' :: htmlUnescape rest
  | c :: rest => c :: htmlUnescape rest

/-- Worker for `re.sub(r'\s+', ' ', s)`: `prevWs` records whether the
previous character was part of a whitespace run already emitted as a single
space. -/
def collapseWsAux (prevWs : Bool) : List Char → List Char
  | [] => []
  | c :: rest =>
    if isWsPy c then
      if prevWs then collapseWsAux true rest
      else ' ' :: collapseWsAux true rest
    else c :: collapseWsAux false rest

/-- Python `re.sub(r'\s+', ' ', s)`: collapse every whitespace run to one
space. -/
def collapseWs (s : List Char) : List Char :=
  collapseWsAux false s

/-- Preview truncation used by the fix reports:
`s[:100] + '...' if len(s) > 100 else s`. -/
def preview100 (s : List Char) : List Char :=
  if 100 < s.length then s.take 100 ++ ("...".data) else s

/-- Predicate form used by the scanners: character different from `c`. -/
def isNot (c : Char) (x : Char) : Bool :=
  x ≠ c

/-- One `bibliomixed` match: the capture groups of
`<bibliomixed id="([^"]+)">([^<]*)</bibliomixed>` (`idStr` is the id
attribute, `body` the pure-text element content). -/
structure BibMatch where
  idStr : List Char
  body : List Char
deriving DecidableEq, Repr

/-- Literal `<bibliomixed id="` opening the bibliography-entry pattern. -/
def bibOpen : List Char := "<bibliomixed id=\"".data

/-- Literal `">` closing the id attribute in the pattern. -/
def quoteGt : List Char := "\">".data

/-- Literal `</bibliomixed>` closing the pattern. -/
def bibClose : List Char := "</bibliomixed>".data

/-- The matched text (`match.group(0)`) of a `bibliomixed` match, which is
also the serialised form of an entry with the given id and content. -/
def bibEntryString (idStr body : List Char) : List Char :=
  bibOpen ++ idStr ++ quoteGt ++ body ++ bibClose

/-- Try the pattern `<bibliomixed id="([^"]+)">([^<]*)</bibliomixed>` at the
current position; on success return the capture groups and the remainder of
the text.  Each character class stops at the character the following literal
starts with, so the regex match here is deterministic. -/
def matchBibAt (s : List Char) : Option (BibMatch × List Char) :=
  match lit bibOpen s with
  | none => none
  | some r1 =>
    let idStr := r1.takeWhile (isNot '"')
    if idStr.isEmpty then none
    else
      match lit quoteGt (r1.dropWhile (isNot '"')) with
      | none => none
      | some r3 =>
        let body := r3.takeWhile (isNot '<')
        match lit bibClose (r3.dropWhile (isNot '<')) with
        | none => none
        | some r5 => some (⟨idStr, body⟩, r5)

/-- Worker for `re.finditer` over the `bibliomixed` pattern: left-to-right,
non-overlapping, continuing after each match.  `fuel` bounds the number of
scanning steps; the callers always supply the length of the text, which
suffices because every step consumes at least one character. -/
def scanBibAux : Nat → List Char → List BibMatch
  | 0, _ => []
  | _ + 1, [] => []
  | fuel + 1, c :: rest =>
    match matchBibAt (c :: rest) with
    | some (m, r5) => m :: scanBibAux fuel r5
    | none => scanBibAux fuel rest

/-- All `bibliomixed` matches of a document, in document order
(`re.finditer(r'<bibliomixed id="([^"]+)">([^<]*)</bibliomixed>', s)`). -/
def scanBibliomixed (s : List Char) : List BibMatch :=
  scanBibAux s.length s

/-- Literal `bib` used when extracting the entry number from an id. -/
def bibLit : List Char := "bib".data

/-- Python `re.search(r'bib(\d+)$', bib_id)` followed by `int(...)` on the
capture: the leftmost occurrence of `bib` that is followed by a nonempty
all-digit run reaching the end of the id. -/
def trailingBibNum : List Char → Option Nat
  | [] => none
  | c :: rest =>
    if litPre bibLit (c :: rest) then
      let ds := (c :: rest).drop 3
      if !ds.isEmpty && ds.all Char.isDigit then some (digitsToNat ds)
      else trailingBibNum rest
    else trailingBibNum rest

/-- Association-list lookup with decidable equality on keys; the extractors
below build their dictionaries by consing, so the first hit is the most
recent assignment, matching Python `dict` overwrite semantics. -/
def alookup {α β : Type} [DecidableEq α] : List (α × β) → α → Option β
  | [], _ => none
  | (k, v) :: t, key => if k = key then some v else alookup t key

/-- Literal `CR` prefixing citation ids. -/
def crLit : List Char := "CR".data

/-- The candidate citation keys tried by `fix_bibliography_content`:
`[f"CR{n}", f"CR{n:02d}", f"CR{n:03d}"]`. -/
def possible_ids (n : Nat) : List (List Char) :=
  [crLit ++ natDigits n, crLit ++ pad2 n, crLit ++ pad3 n]

/-- The `for cit_id in possible_ids: if cit_id in citations: ...; break`
loop: the value for the first candidate key present in the dictionary. -/
def lookupFirstId (cits : List (List Char × List Char)) :
    List (List Char) → Option (List Char)
  | [] => none
  | i :: t =>
    match alookup cits i with
    | some v => some v
    | none => lookupFirstId cits t

/-- Fix record appended by `fix_bibliography_content` for one restored
entry. -/
structure BibFix where
  bib_id : List Char
  original : List Char
  restored : List Char
deriving DecidableEq, Repr

/-- Loop body of `fix_bibliography_content` (fix_content_loss.py, lines
236-267) for one `bibliomixed` match: parse the trailing entry number from
the id, look up the first matching citation key, and when the current
content is shorter than 70% of the citation, substitute the first literal
occurrence of the matched entry text by the entry rebuilt around the escaped
citation. -/
def bibStepCL (cits : List (List Char × List Char))
    (acc : List Char × List BibFix) (m : BibMatch) : List Char × List BibFix :=
  match trailingBibNum m.idStr with
  | none => acc
  | some n =>
    match lookupFirstId cits (possible_ids n) with
    | none => acc
    | some full =>
      if 10 * m.body.length < 7 * full.length then
        (replaceFirst (bibEntryString m.idStr m.body)
            (bibEntryString m.idStr (htmlEscape full)) acc.1,
         acc.2 ++ [⟨m.idStr, preview100 m.body, preview100 full⟩])
      else acc

/-- `fix_bibliography_content(xml_content, citations, ...)` from
fix_content_loss.py: iterate the matches found in the original content,
threading the evolving text through the loop body; returns the fixed content
and the list of fix records. -/
def fix_bibliography_content (xml_content : List Char)
    (cits : List (List Char × List Char)) : List Char × List BibFix :=
  (scanBibliomixed xml_content).foldl (bibStepCL cits) (xml_content, [])

/-- Loop body of `fix_bibliography_file` (fix_remaining_bibliography.py,
lines 61-81) for one match: citations are keyed by the integer entry number
and the threshold compares the *stripped* current content against 70% of
the citation length. -/
def bibStepRem (cits : List (Nat × List Char))
    (acc : List Char × Nat) (m : BibMatch) : List Char × Nat :=
  match trailingBibNum m.idStr with
  | none => acc
  | some n =>
    match alookup cits n with
    | none => acc
    | some full =>
      if 10 * (pyStrip m.body).length < 7 * full.length then
        (replaceFirst (bibEntryString m.idStr m.body)
            (bibEntryString m.idStr (htmlEscape full)) acc.1,
         acc.2 + 1)
      else acc

/-- `fix_bibliography_file(xml_path, citations)` from
fix_remaining_bibliography.py, on the in-memory content: returns the fixed
content and `fixes_made`.  (The script writes the file back only when
`fixes_made > 0`.) -/
def fix_bibliography_file (content : List Char)
    (cits : List (Nat × List Char)) : List Char × Nat :=
  (scanBibliomixed content).foldl (bibStepRem cits) (content, 0)

/-- Fuelled worker for `re.sub(pattern, repl, s)` given a deterministic
position matcher `att` that returns the replacement text and the remainder
after the match.  Matches are non-overlapping and scanned left to right; on
failure the scan advances one character.  Callers pass the text length as
fuel, which suffices because every pattern below consumes at least one
character. -/
def subScanF (att : List Char → Option (List Char × List Char)) :
    Nat → List Char → List Char
  | 0, s => s
  | _ + 1, [] => []
  | fuel + 1, c :: rest =>
    match att (c :: rest) with
    | some (rep, rem) => rep ++ subScanF att fuel rem
    | none => c :: subScanF att fuel rest

/-- `re.sub` driver: scan the whole text. -/
def subScan (att : List Char → Option (List Char × List Char))
    (s : List Char) : List Char :=
  subScanF att s.length s

/-- Literal `</span>`. -/
def spanCloseLit : List Char := "</span>".data

/-- Matcher for `<span class="RefSource">[^<]*</span>` (replaced by the
empty string). -/
def tryRefSource (s : List Char) : Option (List Char × List Char) :=
  match lit ("<span class=\"RefSource\">".data) s with
  | none => none
  | some r1 =>
    match lit spanCloseLit (r1.dropWhile (isNot '<')) with
    | none => none
    | some r2 => some ([], r2)

/-- Matcher for `<span class="Occurrence[^"]*">[^<]*</span>` (replaced by
the empty string). -/
def tryOccurrence (s : List Char) : Option (List Char × List Char) :=
  match lit ("<span class=\"Occurrence".data) s with
  | none => none
  | some r1 =>
    match lit quoteGt (r1.dropWhile (isNot '"')) with
    | none => none
    | some r2 =>
      match lit spanCloseLit (r2.dropWhile (isNot '<')) with
      | none => none
      | some r3 => some ([], r3)

/-- Matcher for an inline-wrapper pattern `<OPEN[^>]*>([^<]*)</CLOSE>`
replaced by its capture group (used for `<a>`, `<em>` and `<span>`
wrappers). -/
def tryWrapper (openLit closeLit : List Char) (s : List Char) :
    Option (List Char × List Char) :=
  match lit openLit s with
  | none => none
  | some r1 =>
    match lit ['>'] (r1.dropWhile (isNot '>')) with
    | none => none
    | some r2 =>
      let g := r2.takeWhile (isNot '<')
      match lit closeLit (r2.dropWhile (isNot '<')) with
      | none => none
      | some r3 => some (g, r3)

/-- Matcher for `</?[a-z][^>]*>` (any remaining lowercase-named tag,
replaced by the empty string).  The optional `/` is committed: when the
character after it is not a lowercase letter the no-slash alternative would
have to match `[a-z]` against `/`, which fails, so no backtracking arises. -/
def tryAnyTag (s : List Char) : Option (List Char × List Char) :=
  match s with
  | '<' :: rest =>
    let r1 := match rest with
      | '/' :: r => r
      | r => r
    match r1 with
    | c :: r2 =>
      if c.isLower then
        match lit ['>'] (r2.dropWhile (isNot '>')) with
        | none => none
        | some r3 => some ([], r3)
      else none
    | [] => none
  | _ => none

/-- The first seven cleaning steps of the citation pipeline
(fix_content_loss.py lines 127-133 and fix_remaining_bibliography.py lines
29-35): strip RefSource spans, strip Occurrence spans, collapse `<a>`,
`<em>` and `<span>` wrappers to their visible text, strip remaining
lowercase tags, collapse whitespace runs and trim. -/
def pre_clean (c : List Char) : List Char :=
  pyStrip (collapseWs (subScan tryAnyTag
    (subScan (tryWrapper ("<span".data) spanCloseLit)
      (subScan (tryWrapper ("<em".data) ("</em>".data))
        (subScan (tryWrapper ("<a".data) ("</a>".data))
          (subScan tryOccurrence (subScan tryRefSource c)))))))

/-- The full citation cleaning pipeline: the seven structural steps followed
by `html.unescape` (applied last, as in the scripts). -/
def clean_citation (c : List Char) : List Char :=
  htmlUnescape (pre_clean c)

/-- Literal `<div class="CitationContent" id="CR` opening the citation
pattern. -/
def citOpen : List Char := "<div class=\"CitationContent\" id=\"CR".data

/-- Literal `</div>`. -/
def divCloseLit : List Char := "</div>".data

/-- Try `<div class="CitationContent" id="(CR\d+)">(.*?)</div>` (DOTALL) at
the current position: the digit run after `CR` must be nonempty, and the
lazy group runs to the first `</div>`. -/
def matchCitationAt (s : List Char) :
    Option ((List Char × List Char) × List Char) :=
  match lit citOpen s with
  | none => none
  | some r1 =>
    let ds := r1.takeWhile Char.isDigit
    if ds.isEmpty then none
    else
      match lit quoteGt (r1.dropWhile Char.isDigit) with
      | none => none
      | some r2 =>
        match splitFirst divCloseLit r2 with
        | none => none
        | some (body, rem) => some ((ds, body), rem)

/-- Fuelled `re.findall` worker for the citation pattern. -/
def scanCitationsAux : Nat → List Char → List (List Char × List Char)
  | 0, _ => []
  | _ + 1, [] => []
  | fuel + 1, c :: rest =>
    match matchCitationAt (c :: rest) with
    | some (p, rem) => p :: scanCitationsAux fuel rem
    | none => scanCitationsAux fuel rest

/-- All citation matches (digit run of the id, raw inner content) in
document order. -/
def scanCitations (s : List Char) : List (List Char × List Char) :=
  scanCitationsAux s.length s

/-- Literal `<span class="Keyword"` opening the keyword pattern. -/
def kwOpen : List Char := "<span class=\"Keyword\"".data

/-- Try `<span class="Keyword"[^>]*>([^<]+)</span>` at the current
position (the capture must be nonempty). -/
def matchKeywordAt (s : List Char) : Option (List Char × List Char) :=
  match lit kwOpen s with
  | none => none
  | some r1 =>
    match lit ['>'] (r1.dropWhile (isNot '>')) with
    | none => none
    | some r2 =>
      let g := r2.takeWhile (isNot '<')
      if g.isEmpty then none
      else
        match lit spanCloseLit (r2.dropWhile (isNot '<')) with
        | none => none
        | some r3 => some (g, r3)

/-- Fuelled `re.findall` worker for the keyword pattern. -/
def scanKeywordsAux : Nat → List Char → List (List Char)
  | 0, _ => []
  | _ + 1, [] => []
  | fuel + 1, c :: rest =>
    match matchKeywordAt (c :: rest) with
    | some (g, rem) => g :: scanKeywordsAux fuel rem
    | none => scanKeywordsAux fuel rest

/-- `keywords = re.findall(...)` then
`[k.strip() for k in keywords if k.strip()]`: tokens in order of
appearance, trimmed, empty tokens discarded, duplicates preserved. -/
def extract_keyword_tokens (content : List Char) : List (List Char) :=
  ((scanKeywordsAux content.length content).map pyStrip).filter
    (fun k => !k.isEmpty)

/-- `extract_citations_with_regex(xhtml_path)` from fix_content_loss.py:
on a read/decode failure the `except` branch returns `({}, [])`; otherwise
the citations dictionary keyed by the string id `CR<digits>` (later
assignments shadow earlier ones) together with the keyword token list. -/
def extract_citations_with_regex (inp : Except (List Char) (List Char)) :
    List (List Char × List Char) × List (List Char) :=
  match inp with
  | .error _ => ([], [])
  | .ok content =>
    ((scanCitations content).foldl
        (fun m p => (crLit ++ p.1, clean_citation p.2) :: m) [],
     extract_keyword_tokens content)

/-- `extract_citations_from_xhtml(xhtml_path)` from
fix_remaining_bibliography.py: same scan and cleaning, but the dictionary is
keyed by the integer citation number and the `except` branch returns `{}`. -/
def extract_citations_from_xhtml (inp : Except (List Char) (List Char)) :
    List (Nat × List Char) :=
  match inp with
  | .error _ => []
  | .ok content =>
    (scanCitations content).foldl
      (fun m p => (digitsToNat p.1, clean_citation p.2) :: m) []

/-- `extract_keywords_from_xhtml(xhtml_path)` from fix_keywords.py and
fix_all_keywords.py: the `except` branch returns `[]`. -/
def extract_keywords_from_xhtml (inp : Except (List Char) (List Char)) :
    List (List Char) :=
  match inp with
  | .error _ => []
  | .ok content => extract_keyword_tokens content

/-- Character class `[a-z0-9_. +-]` under `re.IGNORECASE` (local part of the
garbled-keywords email patterns). -/
def isC1 (c : Char) : Bool :=
  c.isAlpha || c.isDigit || c = '_' || c = '.' || c = ' ' || c = '+' || c = '-'

/-- Character class `[a-z0-9-]` under `re.IGNORECASE` (email domain in
fix_keywords.py). -/
def isC2 (c : Char) : Bool :=
  c.isAlpha || c.isDigit || c = '-'

/-- Character class `[a-z0-9_ -]` under `re.IGNORECASE` (email domain in
fix_all_keywords.py pattern 1). -/
def isC2b (c : Char) : Bool :=
  c.isAlpha || c.isDigit || c = '_' || c = ' ' || c = '-'

/-- Character class `[A-Za-z-]` (keyword words in fix_keywords.py). -/
def isWordDash (c : Char) : Bool :=
  c.isAlpha || c = '-'

/-- Character class `[A-Za-z -]` (keyword words in fix_all_keywords.py). -/
def isWordSp (c : Char) : Bool :=
  c.isAlpha || c = ' ' || c = '-'

/-- Greedy `(?:\s+W+)*` loop for a word class `w`: consume whitespace
followed by a nonempty word run as long as both succeed, reverting the
incomplete last iteration.  (A reverted iteration starts with whitespace
while the pattern that follows the loop starts with `<`, so Python's
backtracking cannot do better.) -/
def starWsWord (w : Char → Bool) : Nat → List Char → List Char
  | 0, s => s
  | fuel + 1, s =>
    if (s.takeWhile isWsPy).isEmpty then s
    else
      let r1 := s.dropWhile isWsPy
      if (r1.takeWhile w).isEmpty then s
      else starWsWord w fuel (r1.dropWhile w)

/-- Literal `<para>`. -/
def paraOpenLit : List Char := "<para>".data

/-- Literal `</para>`. -/
def paraCloseLit : List Char := "</para>".data

/-- Try the fix_keywords.py garbled pattern
`<para>([a-z0-9_. +-]+@[a-z0-9-]+\.\s*[a-z]+\s+[A-Z][a-z-]+(?:\s+[A-Za-z-]+)*)</para>`
(IGNORECASE) at the current position, returning capture group 1. -/
def tryGarbledAt (s : List Char) : Option (List Char) :=
  match lit paraOpenLit s with
  | none => none
  | some r1 =>
    if (r1.takeWhile isC1).isEmpty then none
    else
      match lit ['@'] (r1.dropWhile isC1) with
      | none => none
      | some r3 =>
        if (r3.takeWhile isC2).isEmpty then none
        else
          match lit ['.'] (r3.dropWhile isC2) with
          | none => none
          | some r5 =>
            let r6 := r5.dropWhile isWsPy
            if (r6.takeWhile Char.isAlpha).isEmpty then none
            else
              let r7 := r6.dropWhile Char.isAlpha
              if (r7.takeWhile isWsPy).isEmpty then none
              else
                match r7.dropWhile isWsPy with
                | [] => none
                | c :: r9a =>
                  if c.isAlpha && !(r9a.takeWhile isWordDash).isEmpty then
                    let r10 := starWsWord isWordDash r9a.length
                        (r9a.dropWhile isWordDash)
                    match lit paraCloseLit r10 with
                    | none => none
                    | some _ => some (r1.take (r1.length - r10.length))
                  else none

/-- `re.search` scan for the garbled-keywords pattern: leftmost match,
returning capture group 1. -/
def findGarbledPara : List Char → Option (List Char)
  | [] => none
  | c :: rest =>
    match tryGarbledAt (c :: rest) with
    | some g => some g
    | none => findGarbledPara rest

/-- The `<keywordset>` block built by the scripts:
`'<keywordset>\n'` then one `'      <keyword>…</keyword>\n'` line per
escaped token, closed by `'   </keywordset>'`. -/
def keywordset_xml (kws : List (List Char)) : List Char :=
  ("<keywordset>\n".data) ++
    kws.foldl (fun acc k =>
      acc ++ ("      <keyword>".data) ++ htmlEscape k ++ ("</keyword>\n".data)) [] ++
    ("   </keywordset>".data)

/-- Fix record returned by `fix_keywords_in_file`. -/
structure KwFix where
  original : List Char
  keywords : List (List Char)
deriving DecidableEq, Repr

/-- `fix_keywords_in_file(xml_file, keywords)` from fix_keywords.py on the
in-memory content: when the garbled pattern matches and the keyword list is
nonempty, replace the first occurrence of the whole matched paragraph by the
keyword-set block; otherwise return `None`. -/
def fix_keywords_in_file (content : List Char) (keywords : List (List Char)) :
    Option (List Char × KwFix) :=
  match findGarbledPara content with
  | none => none
  | some g1 =>
    if keywords.isEmpty then none
    else
      some (replaceFirst (paraOpenLit ++ g1 ++ paraCloseLit)
              (keywordset_xml keywords) content,
            ⟨preview100 g1, keywords⟩)

/-- Try fix_all_keywords.py pattern 1
`<para>([a-z0-9_. +-]+@[a-z0-9_ -]+\.\s*[a-z]+)\s+([A-Z][A-Za-z -]+(?:\s+[A-Za-z -]+)*)</para>`
(IGNORECASE) at the current position, returning the whole match
(group 0). -/
def tryAllKwP1At (s : List Char) : Option (List Char) :=
  match lit paraOpenLit s with
  | none => none
  | some r1 =>
    if (r1.takeWhile isC1).isEmpty then none
    else
      match lit ['@'] (r1.dropWhile isC1) with
      | none => none
      | some r3 =>
        if (r3.takeWhile isC2b).isEmpty then none
        else
          match lit ['.'] (r3.dropWhile isC2b) with
          | none => none
          | some r5 =>
            let r6 := r5.dropWhile isWsPy
            if (r6.takeWhile Char.isAlpha).isEmpty then none
            else
              let r7 := r6.dropWhile Char.isAlpha
              if (r7.takeWhile isWsPy).isEmpty then none
              else
                match r7.dropWhile isWsPy with
                | [] => none
                | c :: r9a =>
                  if c.isAlpha && !(r9a.takeWhile isWordSp).isEmpty then
                    let r10 := starWsWord isWordSp r9a.length
                        (r9a.dropWhile isWordSp)
                    match lit paraCloseLit r10 with
                    | none => none
                    | some r11 => some (s.take (s.length - r11.length))
                  else none

/-- Try fix_all_keywords.py pattern 2 `<para>([^<]+@[^<]+)</para>` at the
current position, returning the whole match.  The backtracking semantics of
`[^<]+@[^<]+` reduce to: the text up to the next `<` contains an `@` that is
neither its first nor its last character. -/
def tryAllKwP2At (s : List Char) : Option (List Char) :=
  match lit paraOpenLit s with
  | none => none
  | some r1 =>
    let seg := r1.takeWhile (isNot '<')
    match lit paraCloseLit (r1.dropWhile (isNot '<')) with
    | none => none
    | some _ =>
      if 3 ≤ seg.length && '@' ∈ (seg.drop 1).dropLast then
        some (paraOpenLit ++ seg ++ paraCloseLit)
      else none

/-- Leftmost match of a position matcher (`re.search`). -/
def findFirstMatch (att : List Char → Option (List Char)) :
    List Char → Option (List Char)
  | [] => att []
  | c :: rest =>
    match att (c :: rest) with
    | some g => some g
    | none => findFirstMatch att rest

/-- Per-file logic of `fix_all_garbled_keywords` (fix_all_keywords.py,
lines 57-116): skip files without `@`, skip files already containing
`<keywordset>`, otherwise try the two garbled patterns in order and replace
the first occurrence of the matched paragraph by the keyword-set block.
`kws` packages the chapter-number extraction from the file name, the XHTML
file lookup and the keyword extraction (the `continue` branches on their
failures all yield no fix, i.e. `none`). -/
def fix_all_keywords_file (content : List Char)
    (kws : Option (List (List Char))) : Option (List Char) :=
  if containsSub ['@'] content = false then none
  else if containsSub ("<keywordset>".data) content = true then none
  else
    match findFirstMatch tryAllKwP1At content with
    | some g0 =>
      match kws with
      | none => none
      | some ks =>
        if ks.isEmpty then none
        else some (replaceFirst g0 (keywordset_xml ks) content)
    | none =>
      match findFirstMatch tryAllKwP2At content with
      | none => none
      | some g0 =>
        match kws with
        | none => none
        | some ks =>
          if ks.isEmpty then none
          else some (replaceFirst g0 (keywordset_xml ks) content)

/-- Literal `<chaptertitle>`. -/
def chapterTitleLit : List Char := "<chaptertitle>".data

/-- Try `<chaptertitle>(\d+)\.` at the current position, returning the
integer value of the digit run. -/
def tryTitleAt (s : List Char) : Option Nat :=
  match lit chapterTitleLit s with
  | none => none
  | some r1 =>
    let ds := r1.takeWhile Char.isDigit
    if ds.isEmpty then none
    else
      match lit ['.'] (r1.dropWhile Char.isDigit) with
      | none => none
      | some _ => some (digitsToNat ds)

/-- `re.search(r'<chaptertitle>(\d+)\.', content)` followed by `int(...)`:
the declared chapter ordinal embedded in a derivative document's own title
text (fix_remaining_bibliography.py, main, lines 120-125). -/
def chaptertitle_num : List Char → Option Nat
  | [] => none
  | c :: rest =>
    match tryTitleAt (c :: rest) with
    | some n => some n
    | none => chaptertitle_num rest

/-- The source (XHTML) chapter consulted by `main()` of
fix_remaining_bibliography.py for a derivative document:
`get_xhtml_file_for_chapter(title_ch_num)` globs
`*_{title_ch_num}_Chapter.xhtml`, so the source chapter id is exactly the
declared title ordinal; a document without a declared ordinal is skipped
with a warning (`none`). -/
def main_source_chapter (content : List Char) : Option Nat :=
  chaptertitle_num content

/-- `get_xhtml_chapter_file(xml_chapter)` from fix_keywords.py and
fix_all_keywords.py: the fixed numeric offset, source chapter
`xml_chapter - 2`. -/
def xhtml_chapter_by_offset (xml_chapter : Nat) : Nat :=
  xml_chapter - 2

/-- One entry of the `mappings` list built by `analyze_chapter_mapping` in
fix_content_loss.py (XHTML file number and the chapter number parsed from
the document title, `None` when absent). -/
structure MappingEntry where
  xhtml_num : Nat
  titleNum : Option Nat
deriving DecidableEq, Repr

/-- `get_xml_chapter_id_for_xhtml(xhtml_num, mappings)` from
fix_content_loss.py (lines 336-358): the first mapping entry for the XHTML
number with a truthy title number yields `title_ch_num + 2`; otherwise the
XHTML number itself.  (Python truthiness: a title number of `0` is falsy
and skipped, like `None`.) -/
def get_xml_chapter_id_for_xhtml (xhtml_num : Nat) :
    List MappingEntry → Nat
  | [] => xhtml_num
  | m :: t =>
    if m.xhtml_num = xhtml_num then
      match m.titleNum with
      | some tc =>
        if tc ≠ 0 then tc + 2 else get_xml_chapter_id_for_xhtml xhtml_num t
      | none => get_xml_chapter_id_for_xhtml xhtml_num t
    else get_xml_chapter_id_for_xhtml xhtml_num t

/-- Literal `<indexterm`. -/
def idxOpenLit : List Char := "<indexterm".data

/-- Literal `</indexterm>`. -/
def idxCloseLit : List Char := "</indexterm>".data

/-- Literal `<primary>`. -/
def primaryOpenLit : List Char := "<primary>".data

/-- Literal `</primary>`. -/
def primaryCloseLit : List Char := "</primary>".data

/-- Try `<indexterm[^>]*>\s*<primary>([^<]+)</primary>\s*</indexterm>` at
the current position, returning the primary text, the whole matched text
(`group(0)`) and the remainder. -/
def matchIndextermAt (s : List Char) :
    Option ((List Char × List Char) × List Char) :=
  match lit idxOpenLit s with
  | none => none
  | some r1 =>
    match lit ['>'] (r1.dropWhile (isNot '>')) with
    | none => none
    | some r2 =>
      match lit primaryOpenLit (r2.dropWhile isWsPy) with
      | none => none
      | some r4 =>
        let p := r4.takeWhile (isNot '<')
        if p.isEmpty then none
        else
          match lit primaryCloseLit (r4.dropWhile (isNot '<')) with
          | none => none
          | some r5 =>
            match lit idxCloseLit (r5.dropWhile isWsPy) with
            | none => none
            | some r7 => some ((p, s.take (s.length - r7.length)), r7)

/-- Fuelled `re.finditer` worker for the indexterm pattern, also recording
the text preceding each match (the `content[:match.start()]` that
`verify_indexterm_fixes` computes into its unused `preceding_context`
variable). -/
def scanIndextermAux :
    Nat → List Char → List Char → List (List Char × List Char × List Char)
  | 0, _, _ => []
  | _ + 1, _, [] => []
  | fuel + 1, before, c :: rest =>
    match matchIndextermAt (c :: rest) with
    | some ((p, full), rem) =>
      (before, p, full) :: scanIndextermAux fuel (before ++ full) rem
    | none => scanIndextermAux fuel (before ++ [c]) rest

/-- All indexterm matches of a document as
(preceding text, primary text, whole match). -/
def scanIndexterm (s : List Char) : List (List Char × List Char × List Char) :=
  scanIndextermAux s.length [] s

/-- Does a position matcher succeed anywhere in the text (`re.search`
existence, positions scanned left to right including the empty tail). -/
def existsPos (p : List Char → Bool) : List Char → Bool
  | [] => p []
  | c :: rest => p (c :: rest) || existsPos p rest

/-- Position test for `re.escape(text) + r'\s*' + re.escape(full)`: the
primary text, optional whitespace, then the whole indexterm match. -/
def adjPatternAt (ptxt full s : List Char) : Bool :=
  litPre ptxt s && litPre full ((s.drop ptxt.length).dropWhile isWsPy)

/-- Position test for
`r'<para[^>]*>\s*' + re.escape(text) + r'\s*' + re.escape(full[:20])`. -/
def paraPatternAt (ptxt f20 s : List Char) : Bool :=
  litPre ("<para".data) s &&
    match (s.drop 5).dropWhile (isNot '>') with
    | '>' :: r2 =>
      let r3 := r2.dropWhile isWsPy
      litPre ptxt r3 && litPre f20 ((r3.drop ptxt.length).dropWhile isWsPy)
    | _ => false

/-- `verify_indexterm_fixes` (fix_content_loss.py, lines 460-483) on one
document: an indexterm is flagged when neither the text-adjacent pattern nor
the paragraph-start pattern occurs anywhere in the document.  Both searches
run over the whole content, not over the text preceding the match. -/
def verify_indexterm_issues (content : List Char) : List (List Char) :=
  (scanIndexterm content).filterMap (fun t =>
    if existsPos (adjPatternAt t.2.1 t.2.2) content then none
    else if existsPos (paraPatternAt t.2.1 (t.2.2.take 20)) content then none
    else some t.2.1)

/-- Claim-side rule for index terms, stated per marker: the primary text
appears as visible text (up to whitespace) immediately before this marker.
This definition follows the claim's words and is compared against
`verify_indexterm_issues`, which searches the whole document instead. -/
def spec_adjacent (before ptxt : List Char) : Bool :=
  litPre ptxt.reverse (before.reverse.dropWhile isWsPy)

/-- Claim-side exception for markers that open a paragraph: immediately
before this marker come (right to left) optional whitespace, the primary
text, optional whitespace and an opening `<para...>` tag. -/
def spec_para_adjacent (before ptxt : List Char) : Bool :=
  let r1 := before.reverse.dropWhile isWsPy
  if litPre ptxt.reverse r1 then
    match (r1.drop ptxt.length).dropWhile isWsPy with
    | '>' :: r3 =>
      match r3.dropWhile (isNot '<') with
      | '<' :: _ => litPre ("para".data) (r3.takeWhile (isNot '<')).reverse
      | _ => false
    | _ => false
  else false

/-- The markers the claim's per-marker rule flags: neither adjacency form
holds for the text actually preceding the marker. -/
def spec_indexterm_flags (content : List Char) : List (List Char) :=
  (scanIndexterm content).filterMap (fun t =>
    if spec_adjacent t.1 t.2.1 || spec_para_adjacent t.1 t.2.1 then none
    else some t.2.1)

/-- Classification discriminant of the `fix_bibliography_file` loop body:
the trailing entry number parses, a citation with that number exists, and
the stripped current content is shorter than 70% of it. -/
def bibRecFixable (cits : List (Nat × List Char)) (m : BibMatch) : Bool :=
  match trailingBibNum m.idStr with
  | none => false
  | some n =>
    match alookup cits n with
    | none => false
    | some full => decide (10 * (pyStrip m.body).length < 7 * full.length)

/-- Classification discriminant of the `fix_bibliography_content` loop
body (string-keyed citations, unstripped length). -/
def bibRecFixableCL (cits : List (List Char × List Char)) (m : BibMatch) :
    Bool :=
  match trailingBibNum m.idStr with
  | none => false
  | some n =>
    match lookupFirstId cits (possible_ids n) with
    | none => false
    | some full => decide (10 * m.body.length < 7 * full.length)

/-- Both ends of a text are free of whitespace. -/
def edgesOk (l : List Char) : Bool :=
  (match l.head? with
   | none => true
   | some c => !isWsPy c) &&
  (match l.getLast? with
   | none => true
   | some c => !isWsPy c)

/-- Adjacent-character relation asserting that a text has no run of two
whitespace characters. -/
def wsSepR (a b : Char) : Prop :=
  isWsPy a = false ∨ isWsPy b = false

/-- A ten-character citation text used in concrete instances. -/
def tenAs : List Char := "aaaaaaaaaa".data

/-- A derivative document consisting of one bibliography entry with empty
element content. -/
def bibDoc0 : List Char := "<bibliomixed id=\"xbib1\"></bibliomixed>".data

/-- A source document whose citation `CR1` is the entity `&#32;` (a space)
followed by `a`; entity unescaping runs after trimming, so the extracted
clean text keeps a leading space. -/
def cexXhtml32 : List Char :=
  "<div class=\"CitationContent\" id=\"CR1\">&#32;a</div>".data

/-- A source document whose citation `CR1` is wrapped in uppercase-named
`<EM>` tags, which the lowercase-only tag-stripping step does not remove. -/
def c6Xhtml : List Char :=
  "<div class=\"CitationContent\" id=\"CR1\"><EM>X</EM></div>".data

/-- A source document with three keyword spans. -/
def c4SrcXhtml : List Char :=
  "<div class=\"KeywordGroup\"><span class=\"Keyword\">Depression</span><span class=\"Keyword\">Dysthymia</span><span class=\"Keyword\">Mood</span></div>".data

/-- A derivative keyword region garbled with an email address whose
local-part/domain is split by whitespace. -/
def c4GarbledDoc : List Char :=
  "<para>lfelicia@uccs. edu Depression Dysthymia Mood</para>".data

/-- The structured keyword list the reconciler substitutes for the garbled
region above. -/
def c4Fixed : List Char :=
  "<keywordset>\n      <keyword>Depression</keyword>\n      <keyword>Dysthymia</keyword>\n      <keyword>Mood</keyword>\n   </keywordset>".data

/-- A patched document with two identical index-term markers: the first is
preceded by its primary text at a paragraph start, the second is preceded by
unrelated text. -/
def c9Doc : List Char :=
  "<para>Anxiety<indexterm><primary>Anxiety</primary></indexterm> x</para><para>Q <indexterm><primary>Anxiety</primary></indexterm></para>".data

/-- A document holding two identical bibliography entries separated by other
text. -/
def c5Doc : List Char :=
  ("zz".data) ++ bibEntryString ("xbib1".data) [] ++
    (("yy".data) ++ bibEntryString ("xbib1".data) [])

/-- A document holding one intact bibliography entry whose content already
has the full citation length. -/
def w7Doc : List Char := bibEntryString ("xbib1".data) tenAs

theorem litPre_append (p t : List Char) : litPre p (p ++ t) = true := by
  induction p with
  | nil => rfl
  | cons a as ih => simp [litPre, ih]

theorem litPre_self (p : List Char) : litPre p p = true := by
  have h := litPre_append p []
  simpa using h

theorem litPre_nil_right {p : List Char} (h : litPre p [] = true) : p = [] := by
  cases p with
  | nil => rfl
  | cons a as => simp [litPre] at h

theorem litPre_drop {p s : List Char} (h : litPre p s = true) :
    s = p ++ s.drop p.length := by
  induction p generalizing s with
  | nil => simp
  | cons a as ih =>
    cases s with
    | nil => simp [litPre] at h
    | cons b bs =>
      simp only [litPre] at h
      split at h
      · next hab =>
        subst hab
        simpa using ih h
      · exact absurd h (by simp)

theorem lit_append (p t : List Char) : lit p (p ++ t) = some t := by
  simp [lit, litPre_append, List.drop_left]

theorem splitFirst_eq {p : List Char} :
    ∀ {s a b : List Char}, splitFirst p s = some (a, b) → s = a ++ p ++ b := by
  intro s
  induction s with
  | nil =>
    intro a b h
    simp only [splitFirst] at h
    split at h
    · next hp =>
      obtain rfl : p = [] := litPre_nil_right hp
      simp only [Option.some.injEq, Prod.mk.injEq] at h
      obtain ⟨rfl, rfl⟩ := h
      rfl
    · exact absurd h (by simp)
  | cons c rest ih =>
    intro a b h
    simp only [splitFirst] at h
    split at h
    · next hp =>
      simp only [Option.some.injEq, Prod.mk.injEq] at h
      obtain ⟨rfl, rfl⟩ := h
      simpa using litPre_drop hp
    · next hp =>
      cases heq : splitFirst p rest with
      | none => rw [heq] at h; exact absurd h (by simp)
      | some ab =>
        obtain ⟨a1, b1⟩ := ab
        rw [heq] at h
        simp only [Option.some.injEq, Prod.mk.injEq] at h
        obtain ⟨rfl, rfl⟩ := h
        have := ih heq
        simp [this]

theorem splitFirst_min {p : List Char} :
    ∀ {s a b : List Char}, splitFirst p s = some (a, b) →
      ∀ a2 b2, s = a2 ++ p ++ b2 → a.length ≤ a2.length := by
  intro s
  induction s with
  | nil =>
    intro a b h a2 b2 _
    simp only [splitFirst] at h
    split at h
    · simp only [Option.some.injEq, Prod.mk.injEq] at h
      obtain ⟨rfl, rfl⟩ := h
      simp
    · exact absurd h (by simp)
  | cons c rest ih =>
    intro a b h a2 b2 hs
    simp only [splitFirst] at h
    split at h
    · simp only [Option.some.injEq, Prod.mk.injEq] at h
      obtain ⟨rfl, rfl⟩ := h
      simp
    · next hp =>
      cases heq : splitFirst p rest with
      | none => rw [heq] at h; exact absurd h (by simp)
      | some ab =>
        obtain ⟨a1, b1⟩ := ab
        rw [heq] at h
        simp only [Option.some.injEq, Prod.mk.injEq] at h
        obtain ⟨rfl, rfl⟩ := h
        cases a2 with
        | nil =>
          exfalso
          simp only [List.nil_append] at hs
          rw [hs, litPre_append] at hp
          exact hp rfl
        | cons c2 a2' =>
          simp only [List.cons_append, List.cons.injEq] at hs
          obtain ⟨rfl, hs'⟩ := hs
          have := ih heq a2' b2 hs'
          simpa [Nat.succ_le_succ_iff] using this

theorem splitFirst_self (p : List Char) : splitFirst p p = some ([], []) := by
  cases p with
  | nil => rfl
  | cons c r =>
    simp only [splitFirst]
    rw [if_pos (litPre_self _)]
    simp [List.drop_length]

theorem replaceFirst_self (p s : List Char) : replaceFirst p p s = s := by
  unfold replaceFirst
  cases h : splitFirst p s with
  | none => rfl
  | some ab =>
    obtain ⟨a, b⟩ := ab
    exact (splitFirst_eq h).symm

theorem takeWhile_all_app (q : Char → Bool) (a : List Char) (c : Char)
    (t : List Char) (ha : ∀ x ∈ a, q x = true) (hc : q c = false) :
    (a ++ c :: t).takeWhile q = a := by
  induction a with
  | nil => simp [List.takeWhile_cons, hc]
  | cons x xs ih =>
    have hx := ha x (by simp)
    simp only [List.cons_append, List.takeWhile_cons, hx]
    simp [ih (fun y hy => ha y (by simp [hy]))]

theorem dropWhile_all_app (q : Char → Bool) (a : List Char) (c : Char)
    (t : List Char) (ha : ∀ x ∈ a, q x = true) (hc : q c = false) :
    (a ++ c :: t).dropWhile q = c :: t := by
  induction a with
  | nil => simp [List.dropWhile_cons, hc]
  | cons x xs ih =>
    have hx := ha x (by simp)
    simp only [List.cons_append, List.dropWhile_cons, hx]
    simp [ih (fun y hy => ha y (by simp [hy]))]

theorem isNot_eq_true {c x : Char} (h : x ≠ c) : isNot c x = true := by
  simp [isNot, h]

theorem isNot_self (c : Char) : isNot c c = false := by
  simp [isNot]

theorem matchBibAt_entry (idStr body : List Char) (hid : idStr ≠ [])
    (hq : '"' ∉ idStr) (hb : '<' ∉ body) :
    matchBibAt (bibEntryString idStr body) = some (⟨idStr, body⟩, []) := by
  have hshape : bibEntryString idStr body =
      bibOpen ++ (idStr ++ ('"' :: '>' :: (body ++ bibClose))) := by
    simp [bibEntryString, quoteGt, List.append_assoc]
  have hq' : ∀ x ∈ idStr, isNot '"' x = true :=
    fun x hx => isNot_eq_true (fun he => hq (he ▸ hx))
  have hb' : ∀ x ∈ body, isNot '<' x = true :=
    fun x hx => isNot_eq_true (fun he => hb (he ▸ hx))
  have hbc : bibClose = '<' :: ("/bibliomixed>".data) := by decide
  rw [matchBibAt, hshape, lit_append]
  dsimp only
  rw [takeWhile_all_app (isNot '"') idStr '"' ('>' :: (body ++ bibClose)) hq'
    (isNot_self '"')]
  rw [dropWhile_all_app (isNot '"') idStr '"' ('>' :: (body ++ bibClose)) hq'
    (isNot_self '"')]
  rw [if_neg (by simp [List.isEmpty_iff, hid])]
  have hqgt : ('"' :: '>' :: (body ++ bibClose)) = quoteGt ++ (body ++ bibClose) := by
    simp [quoteGt]
  rw [hqgt, lit_append]
  dsimp only
  rw [hbc]
  rw [takeWhile_all_app (isNot '<') body '<' ("/bibliomixed>".data) hb'
    (isNot_self '<')]
  rw [dropWhile_all_app (isNot '<') body '<' ("/bibliomixed>".data) hb'
    (isNot_self '<')]
  rw [← hbc]
  have : lit bibClose bibClose = some [] := by
    have h := lit_append bibClose []
    simpa using h
  rw [this]

theorem scanBibAux_nil (f : Nat) : scanBibAux f [] = [] := by
  cases f <;> rfl

theorem scanBib_single (idStr body : List Char) (hid : idStr ≠ [])
    (hq : '"' ∉ idStr) (hb : '<' ∉ body) :
    scanBibliomixed (bibEntryString idStr body) = [⟨idStr, body⟩] := by
  have hm := matchBibAt_entry idStr body hid hq hb
  have hopen : bibOpen = '<' :: ("bibliomixed id=\"".data) := by decide
  have hshape : bibEntryString idStr body =
      '<' :: (("bibliomixed id=\"".data) ++ idStr ++ quoteGt ++ body ++ bibClose) := by
    simp [bibEntryString, hopen, List.append_assoc]
  rw [hshape] at hm
  rw [scanBibliomixed, hshape]
  simp only [List.length_cons]
  rw [scanBibAux, hm]
  simp [scanBibAux_nil]

theorem htmlEscape_not_mem_lt (s : List Char) : '<' ∉ htmlEscape s := by
  intro h
  rw [htmlEscape, List.mem_flatten] at h
  obtain ⟨l, hl, hmem⟩ := h
  rw [List.mem_map] at hl
  obtain ⟨x, _, rfl⟩ := hl
  unfold escChar at hmem
  split_ifs at hmem with h1 h2 h3 h4 h5
  · exact absurd hmem (by decide)
  · exact absurd hmem (by decide)
  · exact absurd hmem (by decide)
  · exact absurd hmem (by decide)
  · exact absurd hmem (by decide)
  · simp only [List.mem_singleton] at hmem
    exact h2 hmem.symm

theorem htmlEscape_not_mem_quote (s : List Char) : '"' ∉ htmlEscape s := by
  intro h
  rw [htmlEscape, List.mem_flatten] at h
  obtain ⟨l, hl, hmem⟩ := h
  rw [List.mem_map] at hl
  obtain ⟨x, _, rfl⟩ := hl
  unfold escChar at hmem
  split_ifs at hmem with h1 h2 h3 h4 h5
  · exact absurd hmem (by decide)
  · exact absurd hmem (by decide)
  · exact absurd hmem (by decide)
  · exact absurd hmem (by decide)
  · exact absurd hmem (by decide)
  · simp only [List.mem_singleton] at hmem
    exact h4 hmem.symm

theorem bibStepRem_noop (cits : List (Nat × List Char)) (acc : List Char × Nat)
    (m : BibMatch) (h : bibRecFixable cits m = false) :
    bibStepRem cits acc m = acc := by
  unfold bibRecFixable at h
  unfold bibStepRem
  cases hn : trailingBibNum m.idStr with
  | none => dsimp only
  | some n =>
    rw [hn] at h
    dsimp only at h
    dsimp only
    cases hl : alookup cits n with
    | none => dsimp only
    | some full =>
      rw [hl] at h
      dsimp only at h
      dsimp only
      simp only [decide_eq_false_iff_not] at h
      rw [if_neg h]

theorem foldl_bibStepRem_noop (cits : List (Nat × List Char)) :
    ∀ (ms : List BibMatch) (acc : List Char × Nat),
      (∀ m ∈ ms, bibRecFixable cits m = false) →
      ms.foldl (bibStepRem cits) acc = acc := by
  intro ms
  induction ms with
  | nil => intro acc _; rfl
  | cons m t ih =>
    intro acc h
    rw [List.foldl_cons, bibStepRem_noop cits acc m (h m (by simp))]
    exact ih acc (fun x hx => h x (by simp [hx]))

theorem bibStepCL_noop (cits : List (List Char × List Char))
    (acc : List Char × List BibFix) (m : BibMatch)
    (h : bibRecFixableCL cits m = false) : bibStepCL cits acc m = acc := by
  unfold bibRecFixableCL at h
  unfold bibStepCL
  cases hn : trailingBibNum m.idStr with
  | none => dsimp only
  | some n =>
    rw [hn] at h
    dsimp only at h
    dsimp only
    cases hl : lookupFirstId cits (possible_ids n) with
    | none => dsimp only
    | some full =>
      rw [hl] at h
      dsimp only at h
      dsimp only
      simp only [decide_eq_false_iff_not] at h
      rw [if_neg h]

theorem foldl_bibStepCL_noop (cits : List (List Char × List Char)) :
    ∀ (ms : List BibMatch) (acc : List Char × List BibFix),
      (∀ m ∈ ms, bibRecFixableCL cits m = false) →
      ms.foldl (bibStepCL cits) acc = acc := by
  intro ms
  induction ms with
  | nil => intro acc _; rfl
  | cons m t ih =>
    intro acc h
    rw [List.foldl_cons, bibStepCL_noop cits acc m (h m (by simp))]
    exact ih acc (fun x hx => h x (by simp [hx]))

theorem collapse_head_notWs :
    ∀ (l : List Char) (c : Char) (cs : List Char),
      collapseWsAux true l = c :: cs → isWsPy c = false := by
  intro l
  induction l with
  | nil => intro c cs h; simp [collapseWsAux] at h
  | cons x xs ih =>
    intro c cs h
    cases hx : isWsPy x with
    | true =>
      rw [collapseWsAux, hx] at h
      simp only [if_true] at h
      exact ih c cs h
    | false =>
      rw [collapseWsAux, hx] at h
      simp only [Bool.false_eq_true, if_false] at h
      obtain ⟨rfl, -⟩ := List.cons.injEq .. |>.mp h
      exact hx

theorem collapse_chain :
    ∀ (l : List Char) (b : Bool), List.Chain' wsSepR (collapseWsAux b l) := by
  intro l
  induction l with
  | nil => intro b; simp [collapseWsAux]
  | cons x xs ih =>
    intro b
    cases hx : isWsPy x with
    | true =>
      cases b with
      | true =>
        rw [collapseWsAux, hx]
        simp only [if_true]
        exact ih true
      | false =>
        rw [collapseWsAux, hx]
        simp only [Bool.false_eq_true, if_true, if_false]
        rw [List.chain'_cons']
        refine ⟨?_, ih true⟩
        intro y hy
        cases hh : collapseWsAux true xs with
        | nil => rw [hh] at hy; simp at hy
        | cons c cs =>
          rw [hh] at hy
          simp only [List.head?_cons, Option.mem_def, Option.some.injEq] at hy
          subst hy
          exact Or.inr (collapse_head_notWs xs c cs hh)
    | false =>
      have hb : collapseWsAux b (x :: xs) = x :: collapseWsAux false xs := by
        cases b <;> rw [collapseWsAux, hx] <;> simp
      rw [hb, List.chain'_cons']
      exact ⟨fun y _ => Or.inl hx, ih false⟩

theorem chain_right_of_append {R : Char → Char → Prop} {l1 l2 : List Char}
    (h : List.Chain' R (l1 ++ l2)) : List.Chain' R l2 :=
  (List.chain'_append.mp h).2.1

theorem chain_dropWhile {R : Char → Char → Prop} (p : Char → Bool)
    {l : List Char} (h : List.Chain' R l) :
    List.Chain' R (l.dropWhile p) := by
  obtain ⟨pre, hpre⟩ := List.dropWhile_suffix (l := l) p
  rw [← hpre] at h
  exact chain_right_of_append h

theorem chain_reverse_symm {l : List Char} (h : List.Chain' wsSepR l) :
    List.Chain' wsSepR l.reverse := by
  rw [List.chain'_reverse]
  exact h.imp (fun a b hab => Or.symm hab)

theorem chain_pyStrip {l : List Char} (h : List.Chain' wsSepR l) :
    List.Chain' wsSepR (pyStrip l) := by
  unfold pyStrip
  exact chain_reverse_symm (chain_dropWhile _ (chain_reverse_symm
    (chain_dropWhile _ h)))

theorem dropWhile_head_false (p : Char → Bool) :
    ∀ (l : List Char) (c : Char) (cs : List Char),
      l.dropWhile p = c :: cs → p c = false := by
  intro l
  induction l with
  | nil => intro c cs h; simp at h
  | cons x xs ih =>
    intro c cs h
    rw [List.dropWhile_cons] at h
    split at h
    · exact ih c cs h
    · next hx =>
      obtain ⟨rfl, -⟩ := List.cons.injEq .. |>.mp h
      simp only [Bool.not_eq_true] at hx
      exact hx

theorem edgesOk_pyStrip (t : List Char) : edgesOk (pyStrip t) = true := by
  rw [pyStrip, edgesOk, Bool.and_eq_true]
  constructor
  · cases hh : (((t.dropWhile isWsPy).reverse.dropWhile isWsPy).reverse).head? with
    | none => rfl
    | some c =>
      rw [List.head?_reverse] at hh
      have hwne : (t.dropWhile isWsPy).reverse.dropWhile isWsPy ≠ [] := by
        intro hnil
        rw [hnil] at hh
        simp at hh
      obtain ⟨pre, hpre⟩ :=
        List.dropWhile_suffix (l := (t.dropWhile isWsPy).reverse) isWsPy
      have hlast : ((t.dropWhile isWsPy).reverse).getLast? = some c := by
        rw [← hpre, List.getLast?_append, hh]
        rfl
      rw [List.getLast?_reverse] at hlast
      cases hv : t.dropWhile isWsPy with
      | nil => rw [hv] at hlast; simp at hlast
      | cons a as =>
        rw [hv] at hlast
        simp only [List.head?_cons, Option.some.injEq] at hlast
        subst hlast
        simp [dropWhile_head_false isWsPy t a as hv]
  · cases hh : (((t.dropWhile isWsPy).reverse.dropWhile isWsPy).reverse).getLast? with
    | none => rfl
    | some c =>
      rw [List.getLast?_reverse] at hh
      cases hw : (t.dropWhile isWsPy).reverse.dropWhile isWsPy with
      | nil => rw [hw] at hh; simp at hh
      | cons a as =>
        rw [hw] at hh
        simp only [List.head?_cons, Option.some.injEq] at hh
        subst hh
        simp [dropWhile_head_false isWsPy (t.dropWhile isWsPy).reverse a as hw]

theorem tryTitleAt_entry (ds post : List Char) (hne : ds ≠ [])
    (hdig : ∀ d ∈ ds, d.isDigit = true) :
    tryTitleAt (chapterTitleLit ++ (ds ++ '.' :: post)) =
      some (digitsToNat ds) := by
  rw [tryTitleAt, lit_append]
  dsimp only
  rw [takeWhile_all_app Char.isDigit ds '.' post hdig (by decide)]
  rw [dropWhile_all_app Char.isDigit ds '.' post hdig (by decide)]
  rw [if_neg (by simp [List.isEmpty_iff, hne])]
  have hdot : ('.' :: post) = ['.'] ++ post := rfl
  rw [hdot, lit_append]

theorem tryTitleAt_none {c : Char} (r : List Char) (hc : c ≠ '<') :
    tryTitleAt (c :: r) = none := by
  have hct : chapterTitleLit = '<' :: ("chaptertitle>".data) := by decide
  have hlp : litPre chapterTitleLit (c :: r) = false := by
    rw [hct]
    simp only [litPre]
    rw [if_neg (Ne.symm hc)]
  rw [tryTitleAt, lit, if_neg (by simp [hlp])]

theorem chaptertitle_num_append (pre : List Char)
    (hpre : ∀ x ∈ pre, x ≠ '<') (s : List Char) :
    chaptertitle_num (pre ++ s) = chaptertitle_num s := by
  induction pre with
  | nil => simp
  | cons c pres ih =>
    have hc : c ≠ '<' := hpre c (by simp)
    simp only [List.cons_append, chaptertitle_num]
    rw [tryTitleAt_none _ hc]
    exact ih (fun x hx => hpre x (by simp [hx]))

theorem chaptertitle_num_entry (ds post : List Char) (hne : ds ≠ [])
    (hdig : ∀ d ∈ ds, d.isDigit = true) :
    chaptertitle_num (chapterTitleLit ++ (ds ++ '.' :: post)) =
      some (digitsToNat ds) := by
  have hct : chapterTitleLit = '<' :: ("chaptertitle>".data) := by decide
  have hsh : chapterTitleLit ++ (ds ++ '.' :: post) =
      '<' :: (("chaptertitle>".data) ++ (ds ++ '.' :: post)) := by
    rw [hct]; rfl
  have ht := tryTitleAt_entry ds post hne hdig
  rw [hsh] at ht
  rw [hsh, chaptertitle_num, ht]

theorem fix_bib_file_single (idStr body cit : List Char) (n : Nat)
    (cits : List (Nat × List Char)) (hid : idStr ≠ []) (hq : '"' ∉ idStr)
    (hb : '<' ∉ body) (hn : trailingBibNum idStr = some n)
    (hc : alookup cits n = some cit) :
    fix_bibliography_file (bibEntryString idStr body) cits =
      if 10 * (pyStrip body).length < 7 * cit.length
      then (bibEntryString idStr (htmlEscape cit), 1)
      else (bibEntryString idStr body, 0) := by
  rw [fix_bibliography_file, scanBib_single idStr body hid hq hb]
  rw [List.foldl_cons, List.foldl_nil, bibStepRem, hn]
  try dsimp only
  rw [hc]
  try dsimp only
  by_cases hth : 10 * (pyStrip body).length < 7 * cit.length
  · rw [if_pos hth, if_pos hth]
    try dsimp only
    rw [replaceFirst, splitFirst_self]
    simp
  · rw [if_neg hth, if_neg hth]

theorem matchBibAt_no_lt {s : List Char} {m : BibMatch} {r : List Char}
    (h : matchBibAt s = some (m, r)) : '<' ∉ m.body := by
  unfold matchBibAt at h
  cases h1 : lit bibOpen s with
  | none => rw [h1] at h; exact absurd h (by simp)
  | some r1 =>
    rw [h1] at h
    dsimp only at h
    split at h
    · exact absurd h (by simp)
    · cases h2 : lit quoteGt (r1.dropWhile (isNot '"')) with
      | none => rw [h2] at h; exact absurd h (by simp)
      | some r3 =>
        rw [h2] at h
        dsimp only at h
        cases h3 : lit bibClose (r3.dropWhile (isNot '<')) with
        | none => rw [h3] at h; exact absurd h (by simp)
        | some r5 =>
          rw [h3] at h
          dsimp only at h
          simp only [Option.some.injEq, Prod.mk.injEq] at h
          obtain ⟨rfl, -⟩ := h
          intro hmem
          have := List.mem_takeWhile_imp hmem
          rw [isNot_self] at this
          exact absurd this (by simp)

theorem scanBibAux_no_lt :
    ∀ (f : Nat) (s : List Char) (m : BibMatch),
      m ∈ scanBibAux f s → '<' ∉ m.body := by
  intro f
  induction f with
  | zero => intro s m hm; simp [scanBibAux] at hm
  | succ f ih =>
    intro s m hm
    cases s with
    | nil => simp [scanBibAux] at hm
    | cons c rest =>
      rw [scanBibAux] at hm
      cases hmt : matchBibAt (c :: rest) with
      | none =>
        rw [hmt] at hm
        exact ih rest m hm
      | some pr =>
        obtain ⟨m1, r5⟩ := pr
        rw [hmt] at hm
        dsimp only at hm
        rcases List.mem_cons.mp hm with rfl | hm2
        · exact matchBibAt_no_lt hmt
        · exact ih r5 m hm2

set_option maxRecDepth 4000

/-- Claim C1, counterexample: in `bibDoc0` the bibliography region exists as
an *empty* text node under the expected tag (the scanner's only match has
empty body), yet `fix_bibliography_content` classifies it corrupted and
replaces it with the escaped clean citation — the claim's "(non-empty)"
condition does not hold of the code, whose content pattern is `([^<]*)`. -/
theorem claim1_counterexample :
    scanBibliomixed bibDoc0 = [⟨"xbib1".data, []⟩] ∧
    fix_bibliography_content bibDoc0 [(("CR1".data), tenAs)] =
      (bibEntryString ("xbib1".data) tenAs, [⟨"xbib1".data, [], tenAs⟩]) := by
  decide

/-- Claim C1 (amended): for a document consisting of one bibliography region
that exists as a pure text node (possibly empty) under the expected tag and
has a matched clean citation text, the region is classified corrupted and
replaced exactly when its raw text length is strictly less than 70% of the
clean citation's length; at or above that threshold the document and the fix
list are unchanged. -/
theorem claim1_amended (idStr body cit : List Char) (n : Nat)
    (cits : List (List Char × List Char)) (hid : idStr ≠ [])
    (hq : '"' ∉ idStr) (hb : '<' ∉ body)
    (hn : trailingBibNum idStr = some n)
    (hc : lookupFirstId cits (possible_ids n) = some cit) :
    fix_bibliography_content (bibEntryString idStr body) cits =
      if 10 * body.length < 7 * cit.length
      then (bibEntryString idStr (htmlEscape cit),
            [⟨idStr, preview100 body, preview100 cit⟩])
      else (bibEntryString idStr body, []) := by
  rw [fix_bibliography_content, scanBib_single idStr body hid hq hb]
  rw [List.foldl_cons, List.foldl_nil, bibStepCL, hn]
  try dsimp only
  rw [hc]
  try dsimp only
  by_cases hth : 10 * body.length < 7 * cit.length
  · rw [if_pos hth, if_pos hth]
    try dsimp only
    rw [replaceFirst, splitFirst_self]
    simp
  · rw [if_neg hth, if_neg hth]

/-- Claim C1 witness: instantiating the amended claim on the empty-body
entry and a ten-character citation, the region is replaced. -/
theorem claim1_witness :
    fix_bibliography_content (bibEntryString ("xbib1".data) [])
        [(("CR1".data), tenAs)] =
      (bibEntryString ("xbib1".data) (htmlEscape tenAs),
       [⟨"xbib1".data, preview100 [], preview100 tenAs⟩]) :=
  (claim1_amended ("xbib1".data) [] tenAs 1 [(("CR1".data), tenAs)]
    (by decide) (by decide) (by decide) (by decide) (by decide)).trans
    (by decide)

/-- Claim C2: when a derivative document's own title text declares a chapter
ordinal (a nonempty digit run before a period inside the chaptertitle tag),
the identity mapper of fix_remaining_bibliography.py resolves to exactly
that ordinal as the source chapter id, irrespective of any fixed offset;
when the declared ordinal differs from the offset prediction, the resolution
is not the offset prediction. -/
theorem claim2 (pre ds post : List Char) (hpre : ∀ x ∈ pre, x ≠ '<')
    (hne : ds ≠ []) (hdig : ∀ d ∈ ds, d.isDigit = true) (xmlCh : Nat) :
    main_source_chapter (pre ++ (chapterTitleLit ++ (ds ++ '.' :: post))) =
      some (digitsToNat ds) ∧
    (digitsToNat ds ≠ xhtml_chapter_by_offset xmlCh →
      main_source_chapter (pre ++ (chapterTitleLit ++ (ds ++ '.' :: post))) ≠
        some (xhtml_chapter_by_offset xmlCh)) := by
  have h1 : main_source_chapter
      (pre ++ (chapterTitleLit ++ (ds ++ '.' :: post))) =
      some (digitsToNat ds) := by
    rw [main_source_chapter, chaptertitle_num_append pre hpre]
    exact chaptertitle_num_entry ds post hne hdig
  refine ⟨h1, fun hd hc => hd ?_⟩
  exact Option.some.inj (h1.symm.trans hc)

/-- Claim C2 witness: a document declaring ordinal `6` resolves to source
chapter `6`, which differs from the offset prediction `9` for an XML file
in chapter `11`. -/
theorem claim2_witness :
    main_source_chapter (("ab ".data) ++
        (chapterTitleLit ++ (['6'] ++ '.' :: ("rest".data)))) = some 6 ∧
    xhtml_chapter_by_offset 11 = 9 :=
  ⟨((claim2 ("ab ".data) ['6'] ("rest".data) (by decide) (by decide)
      (by decide) 11).1).trans (by decide), by decide⟩

/-- Claim C3, counterexample: the clean citation extracted from
`cexXhtml32` is `" a"` (unescaping the `&#32;` entity after trimming leaves
a leading space), the first reconciliation run replaces the empty entry of
`bibDoc0` and reports one fix, and the second run on the first run's output
reports one additional fix (replacing the entry by identical text), so the
second run does not report zero fixes. -/
theorem claim3_counterexample :
    (let cits := extract_citations_from_xhtml (Except.ok cexXhtml32)
     let r1 := fix_bibliography_file bibDoc0 cits
     let r2 := fix_bibliography_file r1.1 cits
     r1.2 = 1 ∧ r2.2 = 1 ∧ r2.1 = r1.1) := by
  decide

/-- Claim C3 (amended): a second reconciliation run leaves the repaired
document's content unchanged (a repaired single-entry bibliography document
is a fixed point of `fix_bibliography_file` up to content), and a keyword
region already in structured `<keywordset>` form is classified
already-repaired and never re-matched by `fix_all_garbled_keywords`; the
second run may nevertheless *report* additional (identity) bibliography
fixes, as the counterexample shows. -/
theorem claim3_amended :
    (∀ (idStr body cit : List Char) (n : Nat) (cits : List (Nat × List Char)),
      idStr ≠ [] → '"' ∉ idStr → '<' ∉ body →
      trailingBibNum idStr = some n → alookup cits n = some cit →
      (fix_bibliography_file
          (fix_bibliography_file (bibEntryString idStr body) cits).1 cits).1 =
        (fix_bibliography_file (bibEntryString idStr body) cits).1) ∧
    (∀ (content : List Char) (kws : Option (List (List Char))),
      containsSub ("<keywordset>".data) content = true →
      fix_all_keywords_file content kws = none) := by
  constructor
  · intro idStr body cit n cits hid hq hb hn hc
    rw [fix_bib_file_single idStr body cit n cits hid hq hb hn hc]
    by_cases hth : 10 * (pyStrip body).length < 7 * cit.length
    · rw [if_pos hth]
      try dsimp only
      rw [fix_bib_file_single idStr (htmlEscape cit) cit n cits hid hq
        (htmlEscape_not_mem_lt cit) hn hc]
      by_cases hth2 : 10 * (pyStrip (htmlEscape cit)).length < 7 * cit.length
      · rw [if_pos hth2]
      · rw [if_neg hth2]
    · rw [if_neg hth]
      try dsimp only
      rw [fix_bib_file_single idStr body cit n cits hid hq hb hn hc,
        if_neg hth]
  · intro content kws h
    by_cases h1 : containsSub ['@'] content = false
    · rw [fix_all_keywords_file, if_pos h1]
    · rw [fix_all_keywords_file, if_neg h1, if_pos h]

/-- Claim C3 witness: the stability conjunct at the empty-body entry with
citation `tenAs`, and the already-repaired skip on a document containing a
keyword set. -/
theorem claim3_witness :
    (fix_bibliography_file
        (fix_bibliography_file (bibEntryString ("xbib1".data) [])
          [(1, tenAs)]).1 [(1, tenAs)]).1 =
      (fix_bibliography_file (bibEntryString ("xbib1".data) [])
        [(1, tenAs)]).1 ∧
    fix_all_keywords_file ("<x>a@b</x><keywordset></keywordset>".data)
      none = none :=
  ⟨claim3_amended.1 ("xbib1".data) [] tenAs 1 [(1, tenAs)] (by decide)
      (by decide) (by decide) (by decide) (by decide),
   claim3_amended.2 ("<x>a@b</x><keywordset></keywordset>".data) none
      (by decide)⟩

/-- Claim C4: for a source document whose keyword spans yield the tokens
Depression, Dysthymia, Mood and a derivative document whose keyword region
is the garbled text `lfelicia@uccs. edu Depression Dysthymia Mood` (with the
email split by whitespace), reconciliation replaces the region with a
structured keyword list holding exactly those tokens in order, and the
result contains no residual email text. -/
theorem claim4 :
    extract_keywords_from_xhtml (Except.ok c4SrcXhtml) =
      ["Depression".data, "Dysthymia".data, "Mood".data] ∧
    fix_keywords_in_file c4GarbledDoc
        (extract_keywords_from_xhtml (Except.ok c4SrcXhtml)) =
      some (c4Fixed, ⟨"lfelicia@uccs. edu Depression Dysthymia Mood".data,
        ["Depression".data, "Dysthymia".data, "Mood".data]⟩) ∧
    containsSub ['@'] c4Fixed = false := by
  decide

/-- Claim C5: a corrupted bibliography record's substitution step replaces
the first literal occurrence of the matched corrupted span with the
canonical entry wrapping the escaped clean text around the unchanged id, and
leaves everything after that occurrence — in particular any later occurrence
of the same span — untouched; the prefix preceding the replaced occurrence
is minimal among all decompositions, so it really is the first one. -/
theorem claim5 (cits : List (Nat × List Char)) (m : BibMatch) (k : Nat)
    (content A B : List Char) (n : Nat) (cit : List Char)
    (hn : trailingBibNum m.idStr = some n)
    (hc : alookup cits n = some cit)
    (hth : 10 * (pyStrip m.body).length < 7 * cit.length)
    (hsp : splitFirst (bibEntryString m.idStr m.body) content = some (A, B)) :
    bibStepRem cits (content, k) m =
      (A ++ bibEntryString m.idStr (htmlEscape cit) ++ B, k + 1) ∧
    ∀ A2 B2, content = A2 ++ bibEntryString m.idStr m.body ++ B2 →
      A.length ≤ A2.length := by
  constructor
  · rw [bibStepRem, hn]
    try dsimp only
    rw [hc]
    try dsimp only
    rw [if_pos hth]
    try dsimp only
    rw [replaceFirst, hsp]
  · exact fun A2 B2 h2 => splitFirst_min hsp A2 B2 h2

/-- Claim C5 witness: in a document with two identical corrupted entries,
the substitution step rewrites the first occurrence and leaves the second
occurrence (inside the tail `B`) byte-identical. -/
theorem claim5_witness :
    bibStepRem [(1, tenAs)] (c5Doc, 0) ⟨"xbib1".data, []⟩ =
      (("zz".data) ++ bibEntryString ("xbib1".data) (htmlEscape tenAs) ++
        (("yy".data) ++ bibEntryString ("xbib1".data) []), 1) :=
  (claim5 [(1, tenAs)] ⟨"xbib1".data, []⟩ 0 c5Doc ("zz".data)
    (("yy".data) ++ bibEntryString ("xbib1".data) []) 1 tenAs (by decide)
    (by decide) (by decide) (by decide)).1

/-- Claim C6, counterexample: extracting the citation of `c6Xhtml` yields
clean text that still contains markup — the uppercase-named `<EM>` tags are
not removed by the lowercase-only tag-stripping step — so the guarantee that
the extracted clean text contains no markup tags fails. -/
theorem claim6_counterexample :
    (extract_citations_with_regex (Except.ok c6Xhtml)).1 =
      [(("CR1".data), "<EM>X</EM>".data)] ∧
    '<' ∈ ("<EM>X</EM>".data) := by
  decide

/-- Claim C6 (amended): the cleaning pipeline applies entity unescaping last
over the result of the seven structural steps, and the text entering that
final step is whitespace-normalised: no two adjacent whitespace characters
remain and both ends are trimmed.  (Markup may survive in the output: tags
with uppercase-initial names are not stripped, and the final unescape can
reintroduce markup or whitespace, as the counterexample shows.) -/
theorem claim6_amended (s : List Char) :
    clean_citation s = htmlUnescape (pre_clean s) ∧
    List.Chain' wsSepR (pre_clean s) ∧ edgesOk (pre_clean s) = true := by
  refine ⟨rfl, ?_, ?_⟩
  · unfold pre_clean collapseWs
    exact chain_pyStrip (collapse_chain _ false)
  · unfold pre_clean
    exact edgesOk_pyStrip _

/-- Claim C7: when no region of a document is classified corrupted (for
every scanned bibliography match the fixable discriminant is false),
`fix_bibliography_file` returns the document byte-identical with a fix count
of zero, so the file is neither rewritten nor reported as fixed. -/
theorem claim7 (content : List Char) (cits : List (Nat × List Char))
    (h : ∀ m ∈ scanBibliomixed content, bibRecFixable cits m = false) :
    fix_bibliography_file content cits = (content, 0) := by
  rw [fix_bibliography_file]
  exact foldl_bibStepRem_noop cits _ _ h

/-- Claim C7 witness: a document whose single entry already carries the full
citation is returned unchanged with zero fixes. -/
theorem claim7_witness :
    fix_bibliography_file w7Doc [(1, tenAs)] = (w7Doc, 0) :=
  claim7 w7Doc [(1, tenAs)] (by decide)

/-- Claim C8: on an unreadable or undecodable source document (the `except`
branch of the extraction functions, modelled by an `Except.error` input) all
three fragment extractors return empty results, so one unreadable document
cannot abort a corpus-wide run. -/
theorem claim8 (e : List Char) :
    extract_citations_with_regex (Except.error e) = ([], []) ∧
    extract_citations_from_xhtml (Except.error e) = [] ∧
    extract_keywords_from_xhtml (Except.error e) = [] :=
  ⟨rfl, rfl, rfl⟩

/-- Claim C9: in `c9Doc` the second index-term marker is not preceded by its
primary text, so the claim's per-marker rule flags it, but
`verify_indexterm_fixes` flags nothing because it searches the adjacency
pattern over the whole document and finds the first marker's occurrence
(the code even computes the preceding context into a variable it never
uses). -/
theorem claim9 :
    verify_indexterm_issues c9Doc = [] ∧
    spec_indexterm_flags c9Doc = ["Anxiety".data] := by
  decide

/-- Claim C10: every region the bibliography detection pattern matches has
pure-text element content — the scanner never produces a match whose body
contains a `<`, so an entry whose content contains markup is never
classified and never targeted by a substitution. -/
theorem claim10 (s : List Char) (m : BibMatch)
    (hm : m ∈ scanBibliomixed s) : '<' ∉ m.body :=
  scanBibAux_no_lt s.length s m hm

/-- Claim C10 witness: the single match of `bibDoc0` has markup-free body. -/
theorem claim10_witness :
    (⟨"xbib1".data, []⟩ : BibMatch) ∈ scanBibliomixed bibDoc0 ∧
    '<' ∉ (⟨"xbib1".data, []⟩ : BibMatch).body :=
  ⟨by decide, claim10 bibDoc0 ⟨"xbib1".data, []⟩ (by decide)⟩
